import Mathlib

/-
Verification of the cv-doctor backend (src/backend/app.py) against its
natural-language specification.

Modelling conventions:
- Python strings are `List Char`; `chars` converts a Lean string literal.
- `json.loads` is modelled by an executable recursive-descent parser
  (`json_loads`) over the JSON grammar that Python accepts by default
  (objects, arrays, strings with escapes, numbers, true/false/null and the
  non-standard constants NaN, Infinity, negative Infinity).  Numeric literals are kept
  as their raw character text: no claim depends on numeric semantics, and
  floating point is outside the scope of this embedding.
- Python exceptions are modelled with `Except PyExn`; the request handlers
  catch every exception uniformly, so only the presence of an error is ever
  observable, never its payload.
- The external model client (`model.generate_content`) is abstracted to an
  environment-provided outcome carried by the request record: `none` models
  the call raising, `some text` models it returning `text`.  The prompt text
  sent to the model has no bearing on any claim.
-/

set_option autoImplicit false

/-- Convert a Lean string literal to the `List Char` representation used for
Python strings throughout this development. -/
def chars (s : String) : List Char := s.data

/-- The opening curly bracket character. -/
def lbrace : Char := '\x7b'

/-- The closing curly bracket character. -/
def rbrace : Char := '\x7d'

/-- Whitespace skipped by the JSON grammar. -/
def jsonWs (c : Char) : Bool := c = ' ' || c = '\t' || c = '\n' || c = '\r'

/-- Drop leading JSON whitespace. -/
def skipWs (cs : List Char) : List Char := cs.dropWhile jsonWs

/-- Whitespace stripped by Python `str.strip()` (ASCII subset; the claims never
involve non-ASCII whitespace). -/
def pyIsSpace (c : Char) : Bool :=
  c = ' ' || c = '\t' || c = '\n' || c = '\r' || c = '\x0b' || c = '\x0c'

/-- Python `str.strip()`: remove leading and trailing whitespace. -/
def pyStrip (l : List Char) : List Char :=
  ((l.dropWhile pyIsSpace).reverse.dropWhile pyIsSpace).reverse

/-- Python `str.lower()` (ASCII model). -/
def pyLower (l : List Char) : List Char := l.map Char.toLower

/-- Whether `l` starts with `s` (used to model `str.endswith` via reversal). -/
def listStartsWith : List Char → List Char → Bool
  | _, [] => true
  | [], _ :: _ => false
  | x :: xs, y :: ys => x = y && listStartsWith xs ys

/-- Python `str.endswith`. -/
def pyEndsWith (l s : List Char) : Bool := listStartsWith l.reverse s.reverse

/-- Python `str.find` for a single character: index of the first occurrence,
`none` standing for Python result `-1`. -/
def strFind : List Char → Char → Option Nat
  | [], _ => none
  | x :: xs, c => if x = c then some 0 else (strFind xs c).map (· + 1)

/-- Python `str.rfind` for a single character: index of the last occurrence,
`none` standing for Python result `-1`. -/
def strRfind (cs : List Char) (c : Char) : Option Nat :=
  match strFind cs.reverse c with
  | some i => some (cs.length - 1 - i)
  | none => none

/-- Python slice `text[a:b]`. -/
def pySlice (cs : List Char) (a b : Nat) : List Char := (cs.drop a).take (b - a)

/-- JSON values as produced by `json.loads`.  Numbers keep their raw literal
text (see the header comment). -/
inductive JsonValue where
  | null
  | bool (b : Bool)
  | num (raw : List Char)
  | str (s : List Char)
  | arr (items : List JsonValue)
  | obj (fields : List (List Char × JsonValue))

/-- Lookup in a Python dict modelled as an association list with unique keys
in insertion order. -/
def dictGet : List (List Char × JsonValue) → List Char → Option JsonValue
  | [], _ => none
  | (k, v) :: rest, key => if k = key then some v else dictGet rest key

/-- Python `dict.get(key, default)`. -/
def dictGetD (d : List (List Char × JsonValue)) (key : List Char)
    (dflt : JsonValue) : JsonValue :=
  (dictGet d key).getD dflt

/-- Python dict assignment `d[key] = v`: update in place if the key exists
(keeping its position), otherwise append. -/
def dictSet : List (List Char × JsonValue) → List Char → JsonValue →
    List (List Char × JsonValue)
  | [], key, v => [(key, v)]
  | (k, w) :: rest, key, v =>
    if k = key then (k, v) :: rest else (k, w) :: dictSet rest key v

/-- Python `dict.setdefault(key, v)`: insert only when the key is absent. -/
def dictSetDefault (d : List (List Char × JsonValue)) (key : List Char)
    (v : JsonValue) : List (List Char × JsonValue) :=
  match dictGet d key with
  | some _ => d
  | none => d ++ [(key, v)]

/-- Value of a hexadecimal digit. -/
def hexVal (c : Char) : Option Nat :=
  if '0' ≤ c ∧ c ≤ '9' then some (c.toNat - '0'.toNat)
  else if 'a' ≤ c ∧ c ≤ 'f' then some (c.toNat - 'a'.toNat + 10)
  else if 'A' ≤ c ∧ c ≤ 'F' then some (c.toNat - 'A'.toNat + 10)
  else none

/-- Single-character JSON string escapes. -/
def escChar (c : Char) : Option Char :=
  if c = '"' then some '"'
  else if c = '\\' then some '\\'
  else if c = '/' then some '/'
  else if c = 'b' then some (Char.ofNat 8)
  else if c = 'f' then some (Char.ofNat 12)
  else if c = 'n' then some '\n'
  else if c = 'r' then some '\r'
  else if c = 't' then some '\t'
  else none

/-- Parse the body of a JSON string, the opening quote already consumed.
Returns the decoded content and the input after the closing quote.  Raw
control characters are rejected as in Python strict mode; surrogate-pair
recombination is outside the modelled scope. -/
def parseStringBody : Nat → List Char → Option (List Char × List Char)
  | 0, _ => none
  | _ + 1, [] => none
  | fuel + 1, c :: rest =>
    if c = '"' then some ([], rest)
    else if c = '\\' then
      match rest with
      | 'u' :: h1 :: h2 :: h3 :: h4 :: rest4 => do
        let v1 ← hexVal h1
        let v2 ← hexVal h2
        let v3 ← hexVal h3
        let v4 ← hexVal h4
        let (s, r) ← parseStringBody fuel rest4
        some (Char.ofNat (((v1 * 16 + v2) * 16 + v3) * 16 + v4) :: s, r)
      | e :: rest2 => do
        let ch ← escChar e
        let (s, r) ← parseStringBody fuel rest2
        some (ch :: s, r)
      | [] => none
    else if c.toNat < 32 then none
    else do
      let (s, r) ← parseStringBody fuel rest
      some (c :: s, r)

/-- Longest leading run of decimal digits and the remainder. -/
def digitSpan (cs : List Char) : List Char × List Char :=
  (cs.takeWhile Char.isDigit, cs.dropWhile Char.isDigit)

/-- Integer part of a JSON number: `0`, or a nonzero digit followed by
digits. -/
def parseIntPart : List Char → Option (List Char × List Char)
  | '0' :: rest => some (['0'], rest)
  | c :: rest =>
    if c.isDigit then
      let (ds, rest2) := digitSpan rest
      some (c :: ds, rest2)
    else none
  | [] => none

/-- Optional fractional part of a JSON number. -/
def parseFracPart (cs : List Char) : Option (List Char × List Char) :=
  match cs with
  | '.' :: rest =>
    let (ds, rest2) := digitSpan rest
    if ds = [] then none else some ('.' :: ds, rest2)
  | _ => some ([], cs)

/-- Optional exponent part of a JSON number. -/
def parseExpPart (cs : List Char) : Option (List Char × List Char) :=
  match cs with
  | c :: rest =>
    if c = 'e' ∨ c = 'E' then
      let (sgn, rest2) :=
        match rest with
        | s :: r => if s = '+' ∨ s = '-' then ([s], r) else (([] : List Char), rest)
        | [] => ([], rest)
      let (ds, rest3) := digitSpan rest2
      if ds = [] then none else some (c :: (sgn ++ ds), rest3)
    else some ([], cs)
  | [] => some ([], cs)

/-- Lex a JSON number, returning its raw text and the remaining input. -/
def parseNumber (cs : List Char) : Option (List Char × List Char) := do
  let (neg, cs1) :=
    match cs with
    | '-' :: r => ((['-'] : List Char), r)
    | _ => ([], cs)
  let (ip, cs2) ← parseIntPart cs1
  let (fp, cs3) ← parseFracPart cs2
  let (ep, cs4) ← parseExpPart cs3
  some (neg ++ ip ++ fp ++ ep, cs4)

/-- Consume the literal `lit` from the front of `cs`. -/
def stripLit (lit cs : List Char) : Option (List Char) :=
  if listStartsWith cs lit then some (cs.drop lit.length) else none

mutual

/-- Parse one JSON value (leading whitespace allowed), returning the value and
the remaining input.  Fuel bounds the recursion depth; `json_loads` supplies
enough for any input of the given length. -/
def parseVal : Nat → List Char → Option (JsonValue × List Char)
  | 0, _ => none
  | fuel + 1, cs =>
    match skipWs cs with
    | [] => none
    | c :: rest =>
      if c = lbrace then parseObjBody fuel [] rest
      else if c = '[' then parseArrBody fuel [] rest
      else if c = '"' then
        match parseStringBody (rest.length + 1) rest with
        | some (s, r) => some (.str s, r)
        | none => none
      else if c = 't' then
        match stripLit (chars "rue") rest with
        | some r => some (.bool true, r)
        | none => none
      else if c = 'f' then
        match stripLit (chars "alse") rest with
        | some r => some (.bool false, r)
        | none => none
      else if c = 'n' then
        match stripLit (chars "ull") rest with
        | some r => some (.null, r)
        | none => none
      else if c = 'N' then
        match stripLit (chars "aN") rest with
        | some r => some (.num (chars "NaN"), r)
        | none => none
      else if c = 'I' then
        match stripLit (chars "nfinity") rest with
        | some r => some (.num (chars "Infinity"), r)
        | none => none
      else if c = '-' then
        match stripLit (chars "Infinity") rest with
        | some r => some (.num (chars "-Infinity"), r)
        | none =>
          match parseNumber (c :: rest) with
          | some (raw, r) => some (.num raw, r)
          | none => none
      else
        match parseNumber (c :: rest) with
        | some (raw, r) => some (.num raw, r)
        | none => none

/-- Parse the members of a JSON object, positioned right after the opening
brace or after a comma.  Duplicate keys overwrite in place, mirroring
Python dict construction. -/
def parseObjBody : Nat → List (List Char × JsonValue) → List Char →
    Option (JsonValue × List Char)
  | 0, _, _ => none
  | fuel + 1, acc, cs =>
    match skipWs cs with
    | [] => none
    | c :: rest =>
      if c = rbrace then
        match acc with
        | [] => some (.obj [], rest)
        | _ => none
      else if c = '"' then
        match parseStringBody (rest.length + 1) rest with
        | some (k, r1) =>
          match skipWs r1 with
          | ':' :: r2 =>
            match parseVal fuel r2 with
            | some (v, r3) => parseObjTail fuel (dictSet acc k v) r3
            | none => none
          | _ => none
        | none => none
      else none

/-- After an object member: expect a closing brace or a comma. -/
def parseObjTail : Nat → List (List Char × JsonValue) → List Char →
    Option (JsonValue × List Char)
  | 0, _, _ => none
  | fuel + 1, acc, cs =>
    match skipWs cs with
    | [] => none
    | c :: rest =>
      if c = rbrace then some (.obj acc, rest)
      else if c = ',' then parseObjBody fuel acc rest
      else none

/-- Parse the items of a JSON array, positioned right after the opening
bracket or after a comma. -/
def parseArrBody : Nat → List JsonValue → List Char →
    Option (JsonValue × List Char)
  | 0, _, _ => none
  | fuel + 1, acc, cs =>
    match skipWs cs with
    | [] => none
    | c :: rest =>
      if c = ']' then
        match acc with
        | [] => some (.arr [], rest)
        | _ => none
      else
        match parseVal fuel cs with
        | some (v, r) => parseArrTail fuel (acc ++ [v]) r
        | none => none

/-- After an array item: expect a closing bracket or a comma. -/
def parseArrTail : Nat → List JsonValue → List Char →
    Option (JsonValue × List Char)
  | 0, _, _ => none
  | fuel + 1, acc, cs =>
    match skipWs cs with
    | [] => none
    | c :: rest =>
      if c = ']' then some (.arr acc, rest)
      else if c = ',' then parseArrBody fuel acc rest
      else none

end

/-- Model of Python `json.loads`: parse one JSON document and require that
only whitespace remains. -/
def json_loads (cs : List Char) : Option JsonValue :=
  match parseVal (2 * cs.length + 4) cs with
  | some (v, rest) => if skipWs rest = [] then some v else none
  | none => none

/-- Python exceptions distinguished by the model.  The request handlers catch
every exception uniformly, so only the presence of an error is observable. -/
inductive PyExn where
  | valueError (msg : List Char)
  | jsonDecodeError
  | typeError

/-- Whether an `Except` result is a failure. -/
def isFailure {α : Type} (e : Except PyExn α) : Bool :=
  match e with
  | .error _ => true
  | .ok _ => false

/-- Model of `best_effort_json` (src/backend/app.py): slice from the first
opening brace to the last closing brace and parse that substring as JSON. -/
def best_effort_json (text : List Char) : Except PyExn JsonValue :=
  if text = [] then .error (.valueError (chars "Empty model response"))
  else
    match strFind text lbrace, strRfind text rbrace with
    | some s, some e =>
      if e ≤ s then .error (.valueError (chars "No JSON object found"))
      else
        match json_loads (pySlice text s (e + 1)) with
        | some v => .ok v
        | none => .error .jsonDecodeError
    | _, _ => .error (.valueError (chars "No JSON object found"))

mutual

/-- Python `repr` of a JSON-derived value (approximated: string escaping
corner cases are not modelled; no claim exercises them). -/
def pyRepr : JsonValue → List Char
  | .null => chars "None"
  | .bool true => chars "True"
  | .bool false => chars "False"
  | .num raw => raw
  | .str s => '\x27' :: (s ++ ['\x27'])
  | .arr xs => '[' :: (pyReprItems xs ++ [']'])
  | .obj fs => lbrace :: (pyReprFields fs ++ [rbrace])

/-- Comma-separated `repr`s of list items. -/
def pyReprItems : List JsonValue → List Char
  | [] => []
  | [x] => pyRepr x
  | x :: xs => pyRepr x ++ chars ", " ++ pyReprItems xs

/-- Comma-separated `repr`s of dict entries. -/
def pyReprFields : List (List Char × JsonValue) → List Char
  | [] => []
  | [(k, v)] => '\x27' :: (k ++ chars "\x27: " ++ pyRepr v)
  | (k, v) :: rest =>
    '\x27' :: (k ++ chars "\x27: " ++ pyRepr v ++ chars ", " ++ pyReprFields rest)

end

/-- Python `str()` of a JSON-derived value (as used by f-string
interpolation). -/
def pyStr : JsonValue → List Char
  | .str s => s
  | v => pyRepr v

/-- Extract the payload of a string value. -/
def strOfVal : JsonValue → Option (List Char)
  | .str s => some s
  | _ => none

/-- Python `", ".join(x)` on a JSON-derived value: joins an iterable of
strings (a list of strings, the characters of a string, or the keys of a
dict); anything else raises `TypeError`. -/
def pyCommaJoin : JsonValue → Except PyExn (List Char)
  | .str s => .ok (List.intercalate (chars ", ") (s.map fun c => [c]))
  | .arr xs =>
    match xs.mapM strOfVal with
    | some ss => .ok (List.intercalate (chars ", ") ss)
    | none => .error .typeError
  | .obj fs => .ok (List.intercalate (chars ", ") (fs.map Prod.fst))
  | _ => .error .typeError

/-- The f-string at src/backend/app.py:177-181 building the
`keyword_analysis_text` fallback, evaluated left to right. -/
def keywordAnalysisText (ka : List (List Char × JsonValue)) :
    Except PyExn (List Char) :=
  match pyCommaJoin (dictGetD ka (chars "present") (.arr [])) with
  | .error e => .error e
  | .ok p =>
    match pyCommaJoin (dictGetD ka (chars "missing") (.arr [])) with
    | .error e => .error e
    | .ok m =>
      .ok (chars "Present: " ++ p ++ chars " | Missing: " ++ m ++ chars " | "
          ++ pyStr (dictGetD ka (chars "density_comment") (.str [])))

/-- Post-parse step of `analyze_cv` (src/backend/app.py:175-181): when
`keyword_analysis` is a dict, attach the derived summary string under
`keyword_analysis_text`.  A non-dict parse result would raise on attribute
access; `best_effort_json` can only return objects, so that branch is
unreachable. -/
def analyze_postprocess : JsonValue → Except PyExn JsonValue
  | .obj fields =>
    match dictGet fields (chars "keyword_analysis") with
    | some (.obj ka) =>
      match keywordAnalysisText ka with
      | .ok t =>
        .ok (.obj (dictSet fields (chars "keyword_analysis_text") (.str t)))
      | .error e => .error e
    | _ => .ok (.obj fields)
  | _ => .error .typeError

/-- Post-parse step of `enhance_cv` (src/backend/app.py:216-220): require the
`enhanced_cv_md` key, then default the output filename. -/
def enhance_postprocess : JsonValue → Except PyExn JsonValue
  | .obj fields =>
    match dictGet fields (chars "enhanced_cv_md") with
    | some _ =>
      .ok (.obj (dictSetDefault fields (chars "file_name")
        (.str (chars "Careeri_Enhanced_CV.pdf"))))
    | none => .error (.valueError (chars "Missing enhanced_cv_md in model output"))
  | _ => .error .typeError

/-- Outcome of `page.extract_text()` on one PDF page: the call raises, or
returns a value (`none` modelling Python `None`, coalesced to the empty
string by `or ""`). -/
inductive PageResult where
  | extractError
  | extracted (t : Option (List Char))

/-- Environment model of an uploaded file stream: what the PDF and DOCX
libraries would produce on it.  `none` at the outer level models the
reader constructor raising. -/
structure FileStream where
  pdfPages : Option (List PageResult)
  docxParagraphs : Option (List (List Char))

/-- Python `x or ""` on an optional string. -/
def pyOrEmpty : Option (List Char) → List Char
  | none => []
  | some s => s

/-- The page texts accumulated by `extract_text_from_pdf`, newline-joined but
not yet stripped.  Pages whose extraction raised are skipped. -/
def joinPages (pages : List PageResult) : List Char :=
  List.intercalate ['\n'] (pages.filterMap fun p =>
    match p with
    | .extractError => none
    | .extracted t => some (pyOrEmpty t))

/-- The raw (unstripped) text `extract_text_from_pdf` would join. -/
def pdfRawText (fs : FileStream) : List Char :=
  match fs.pdfPages with
  | none => []
  | some pages => joinPages pages

/-- Model of `extract_text_from_pdf` (src/backend/app.py:24-37): join the
page texts with newlines and strip; any reader failure yields the empty
string. -/
def extract_text_from_pdf (fs : FileStream) : List Char :=
  match fs.pdfPages with
  | none => []
  | some pages => pyStrip (joinPages pages)

/-- The raw (unstripped) text `extract_text_from_docx` would join. -/
def docxRawText (fs : FileStream) : List Char :=
  match fs.docxParagraphs with
  | none => []
  | some paras => List.intercalate ['\n'] paras

/-- Model of `extract_text_from_docx` (src/backend/app.py:39-45). -/
def extract_text_from_docx (fs : FileStream) : List Char :=
  match fs.docxParagraphs with
  | none => []
  | some paras => pyStrip (List.intercalate ['\n'] paras)

/-- Model of `read_cv_text_from_request` (src/backend/app.py:47-53):
dispatch on the lowercased filename suffix; unsupported suffixes yield the
empty string without consulting either extractor. -/
def read_cv_text_from_request (files : FileStream) (filename : List Char) :
    List Char :=
  if pyEndsWith (pyLower filename) (chars ".pdf") then extract_text_from_pdf files
  else if pyEndsWith (pyLower filename) (chars ".docx") then
    extract_text_from_docx files
  else []

/-- One `/api/analyze` request together with the environment behaviour it
meets: whether the model client was configured, the multipart fields, and
the outcome of the model invocation (`none` models the call raising). -/
structure AnalyzeRequest where
  modelConfigured : Bool
  hasFile : Bool
  lang : List Char
  filename : List Char
  files : FileStream
  modelResponse : Option (List Char)

/-- One `/api/enhance` request (same shape plus the optional form fields). -/
structure EnhanceRequest where
  modelConfigured : Bool
  hasFile : Bool
  lang : List Char
  target_role : List Char
  job_desc : List Char
  tone : List Char
  template_style : List Char
  filename : List Char
  files : FileStream
  modelResponse : Option (List Char)

/-- An HTTP response: status code and JSON body. -/
structure HttpResponse where
  status : Nat
  body : JsonValue

/-- The body `jsonify(\x7b"error": msg\x7d)` produced on every failure path. -/
def errorBody (msg : String) : JsonValue :=
  .obj [(chars "error", .str (chars msg))]

/-- Model of the `/api/analyze` handler `analyze_cv`
(src/backend/app.py:147-186). -/
def analyze_cv (req : AnalyzeRequest) : HttpResponse :=
  if req.modelConfigured = false then
    ⟨500, errorBody "AI model is not configured on the server."⟩
  else if req.hasFile = false then
    ⟨400, errorBody "No file part"⟩
  else if req.filename = [] then
    ⟨400, errorBody "No selected file"⟩
  else
    let cv_text := read_cv_text_from_request req.files req.filename
    if cv_text = [] ∨ cv_text.length < 50 then
      ⟨400, errorBody "Could not extract sufficient text."⟩
    else
      match req.modelResponse with
      | none => ⟨500, errorBody "AI analysis failed."⟩
      | some text =>
        match best_effort_json text with
        | .error _ => ⟨500, errorBody "AI analysis failed."⟩
        | .ok parsed =>
          match analyze_postprocess parsed with
          | .error _ => ⟨500, errorBody "AI analysis failed."⟩
          | .ok out => ⟨200, out⟩

/-- Model of the `/api/enhance` handler `enhance_cv`
(src/backend/app.py:188-224). -/
def enhance_cv (req : EnhanceRequest) : HttpResponse :=
  if req.modelConfigured = false then
    ⟨500, errorBody "AI model is not configured on the server."⟩
  else if req.hasFile = false then
    ⟨400, errorBody "No file part"⟩
  else if req.filename = [] then
    ⟨400, errorBody "No selected file"⟩
  else
    let cv_text := read_cv_text_from_request req.files req.filename
    if cv_text = [] ∨ cv_text.length < 50 then
      ⟨400, errorBody "Could not extract sufficient text."⟩
    else
      match req.modelResponse with
      | none => ⟨500, errorBody "AI enhancement failed."⟩
      | some text =>
        match best_effort_json text with
        | .error _ => ⟨500, errorBody "AI enhancement failed."⟩
        | .ok parsed =>
          match enhance_postprocess parsed with
          | .error _ => ⟨500, errorBody "AI enhancement failed."⟩
          | .ok out => ⟨200, out⟩

/-- Lookup a top-level key in a response body. -/
def bodyGet (r : HttpResponse) (k : List Char) : Option JsonValue :=
  match r.body with
  | .obj fields => dictGet fields k
  | _ => none

/-- Whether a JSON value is a string. -/
def isStrVal : JsonValue → Bool
  | .str _ => true
  | _ => false






def samplePdfText : String :=
  "Experienced software engineer with ten years of quality work history."

def okFileStream : FileStream :=
  ⟨some [.extracted (some (chars samplePdfText))], none⟩

def c1Req : AnalyzeRequest :=
  { modelConfigured := true
    hasFile := true
    lang := chars "en"
    filename := chars "cv.pdf"
    files := okFileStream
    modelResponse := some (chars "\x7b\"suggestions\": [\"a\", \x7b\x7d]\x7d") }

def c6Req : AnalyzeRequest :=
  { modelConfigured := true
    hasFile := true
    lang := chars "en"
    filename := chars "cv.pdf"
    files := okFileStream
    modelResponse := some (chars "Sure! \x7b\"keyword_analysis\": \x7b\"present\": [\"python\", \"sql\"], \"missing\": [\"go\"], \"density_comment\": \"ok density\"\x7d\x7d") }

def c5Req : EnhanceRequest :=
  { modelConfigured := true
    hasFile := true
    lang := chars "en"
    target_role := []
    job_desc := []
    tone := chars "Professional and concise"
    template_style := chars "Modern-ATS"
    filename := chars "cv.docx"
    files := ⟨none, some [chars samplePdfText]⟩
    modelResponse := some (chars "\x7b\"summary\": \"s\"\x7d") }

def c4ReqNoModel : AnalyzeRequest :=
  { modelConfigured := false
    hasFile := true
    lang := chars "en"
    filename := chars "cv.pdf"
    files := okFileStream
    modelResponse := none }

def c4ReqBadJson : AnalyzeRequest :=
  { modelConfigured := true
    hasFile := true
    lang := chars "en"
    filename := chars "cv.pdf"
    files := okFileStream
    modelResponse := some (chars "no json today") }

def c7Req : AnalyzeRequest :=
  { modelConfigured := true
    hasFile := true
    lang := chars "en"
    filename := chars "cv.txt"
    files := okFileStream
    modelResponse := some (chars "\x7b\"overall_score\": 90\x7d") }

def c10FileStream : FileStream :=
  ⟨some [.extracted (some (chars
    "                                                  short"))], none⟩

def c10Req : AnalyzeRequest :=
  { modelConfigured := true
    hasFile := true
    lang := chars "en"
    filename := chars "cv.pdf"
    files := c10FileStream
    modelResponse := none }

theorem strFind_append_cons (l1 l2 : List Char) (c : Char) (h : c ∉ l1) :
    strFind (l1 ++ c :: l2) c = some l1.length := by
  induction l1 with
  | nil => simp [strFind]
  | cons x xs ih =>
    have hx : ¬(x = c) := fun hxc => h (hxc ▸ List.mem_cons_self x xs)
    have hxs : c ∉ xs := fun hm => h (List.mem_cons_of_mem x hm)
    simp [strFind, hx, ih hxs]

theorem strRfind_append_cons (l1 l2 : List Char) (c : Char) (h : c ∉ l2) :
    strRfind (l1 ++ c :: l2) c = some l1.length := by
  have hrev : (l1 ++ c :: l2).reverse = l2.reverse ++ c :: l1.reverse := by
    simp
  have h1 : strFind (l1 ++ c :: l2).reverse c = some l2.length := by
    rw [hrev, strFind_append_cons _ _ _ (by simpa using h)]
    simp
  unfold strRfind
  rw [h1]
  have hl : (l1 ++ c :: l2).length - 1 - l2.length = l1.length := by
    simp [List.length_append]
  show some ((l1 ++ c :: l2).length - 1 - l2.length) = some l1.length
  rw [hl]

theorem pySlice_append (pre mid post : List Char) :
    pySlice (pre ++ mid ++ post) pre.length (pre.length + mid.length) = mid := by
  unfold pySlice
  rw [List.append_assoc, List.drop_left,
    show pre.length + mid.length - pre.length = mid.length by omega,
    List.take_left]

theorem dictGet_dictSet_self (d : List (List Char × JsonValue)) (k : List Char)
    (v : JsonValue) : dictGet (dictSet d k v) k = some v := by
  induction d with
  | nil => simp [dictSet, dictGet]
  | cons p rest ih =>
    obtain ⟨k1, v1⟩ := p
    by_cases h : k1 = k
    · simp [dictSet, dictGet, h]
    · simp [dictSet, dictGet, h, ih]

theorem dictGet_dictSet_ne (d : List (List Char × JsonValue)) (k k1 : List Char)
    (v : JsonValue) (h : k1 ≠ k) :
    dictGet (dictSet d k v) k1 = dictGet d k1 := by
  induction d with
  | nil => simp [dictSet, dictGet, Ne.symm h]
  | cons p rest ih =>
    obtain ⟨k2, v2⟩ := p
    by_cases h2 : k2 = k
    · subst h2
      simp [dictSet, dictGet, Ne.symm h]
    · by_cases h3 : k2 = k1
      · simp [dictSet, dictGet, h2, h3, h]
      · simp [dictSet, dictGet, h2, h3, ih]

theorem dropWhile_twice (p : Char → Bool) (l : List Char) :
    (l.dropWhile p).dropWhile p = l.dropWhile p := by
  induction l with
  | nil => simp
  | cons x xs ih =>
    by_cases h : p x
    · simp [List.dropWhile_cons, h, ih]
    · simp [List.dropWhile_cons, h]

theorem dropWhile_eq_self_of_isPre (p : Char → Bool) (y a : List Char)
    (hpre : y <+: a) (ha : a.dropWhile p = a) : y.dropWhile p = y := by
  cases y with
  | nil => simp
  | cons c t =>
    obtain ⟨r, hr⟩ := hpre
    have hc : p c = false := by
      by_contra hc
      have hc' : p c = true := by simpa using hc
      rw [← hr, List.cons_append, List.dropWhile_cons, hc'] at ha
      simp only [if_pos] at ha
      have hle : ((t ++ r).dropWhile p).length ≤ (t ++ r).length :=
        (List.dropWhile_suffix p).length_le
      have hlen := congrArg List.length ha
      rw [List.length_cons] at hlen
      omega
    simp [List.dropWhile_cons, hc]

theorem pyStrip_idem (l : List Char) : pyStrip (pyStrip l) = pyStrip l := by
  unfold pyStrip
  have h1 : (l.dropWhile pyIsSpace).dropWhile pyIsSpace = l.dropWhile pyIsSpace :=
    dropWhile_twice _ l
  have hsuf : (l.dropWhile pyIsSpace).reverse.dropWhile pyIsSpace
      <:+ (l.dropWhile pyIsSpace).reverse := List.dropWhile_suffix _
  have hpre : ((l.dropWhile pyIsSpace).reverse.dropWhile pyIsSpace).reverse
      <+: l.dropWhile pyIsSpace := by
    have := List.reverse_prefix.mpr hsuf
    simpa using this
  have h2 := dropWhile_eq_self_of_isPre pyIsSpace _ _ hpre h1
  rw [h2, List.reverse_reverse, dropWhile_twice]

theorem startsWith_cons (l s : List Char) (c : Char)
    (h : listStartsWith l (c :: s) = true) :
    ∃ t, l = c :: t ∧ listStartsWith t s = true := by
  cases l with
  | nil => simp [listStartsWith] at h
  | cons x xs =>
    simp [listStartsWith] at h
    exact ⟨xs, by rw [h.1], h.2⟩

theorem read_eq_pdf (fs : FileStream) (fname : List Char)
    (h : pyEndsWith (pyLower fname) (chars ".pdf") = true) :
    read_cv_text_from_request fs fname = extract_text_from_pdf fs := by
  simp [read_cv_text_from_request, h]

theorem read_eq_docx (fs : FileStream) (fname : List Char)
    (h : pyEndsWith (pyLower fname) (chars ".docx") = true) :
    read_cv_text_from_request fs fname = extract_text_from_docx fs := by
  have hrev : listStartsWith (pyLower fname).reverse ('x' :: chars "cod.") = true := by
    have he : (chars ".docx").reverse = 'x' :: chars "cod." := by decide
    have := h
    unfold pyEndsWith at this
    rwa [he] at this
  obtain ⟨t, ht, _⟩ := startsWith_cons _ _ _ hrev
  have hxf : ('x' : Char) ≠ 'f' := by decide
  have hpdf : pyEndsWith (pyLower fname) (chars ".pdf") = false := by
    unfold pyEndsWith
    rw [ht, show (chars ".pdf").reverse = 'f' :: chars "dp." from by decide]
    simp [listStartsWith, hxf]
  simp [read_cv_text_from_request, hpdf, h]

theorem read_eq_empty (fs : FileStream) (fname : List Char)
    (hpdf : pyEndsWith (pyLower fname) (chars ".pdf") = false)
    (hdocx : pyEndsWith (pyLower fname) (chars ".docx") = false) :
    read_cv_text_from_request fs fname = [] := by
  simp [read_cv_text_from_request, hpdf, hdocx]

/-- Claim C8 (confirmed): normalizing the same raw text twice yields identical
structured output.  `best_effort_json` is embedded as a pure function of its
input: it reads and mutates no state, so determinism is definitional. -/
theorem c8_normalizer_deterministic (t : List Char) :
    best_effort_json t = best_effort_json t := rfl

/-- Claim C9 (confirmed): the file-type dispatch lowercases the filename
before testing the suffix, so a filename whose lowercased form ends in
`.pdf` selects the PDF extractor and one ending in `.docx` selects the
DOCX extractor. -/
theorem c9_dispatch_case_insensitive (fs : FileStream) (fname : List Char) :
    (pyEndsWith (pyLower fname) (chars ".pdf") = true →
      read_cv_text_from_request fs fname = extract_text_from_pdf fs) ∧
    (pyEndsWith (pyLower fname) (chars ".docx") = true →
      read_cv_text_from_request fs fname = extract_text_from_docx fs) :=
  ⟨read_eq_pdf fs fname, read_eq_docx fs fname⟩

/-- Witness for C9 at the uppercase filenames named by the claim. -/
theorem c9_dispatch_case_insensitive_witness :
    read_cv_text_from_request okFileStream (chars "CV.PDF")
      = extract_text_from_pdf okFileStream ∧
    read_cv_text_from_request okFileStream (chars "cv.Docx")
      = extract_text_from_docx okFileStream :=
  ⟨(c9_dispatch_case_insensitive okFileStream (chars "CV.PDF")).1 (by decide),
   (c9_dispatch_case_insensitive okFileStream (chars "cv.Docx")).2 (by decide)⟩

/-- Claim C3 (confirmed): `best_effort_json` fails if and only if the text has
no opening brace, or no closing brace, or the last closing brace is at or
before the first opening brace, or the enclosed substring is not valid JSON.
A failure is an `Except.error`, which carries no parsed value, so no partial
object is ever returned. -/
theorem c3_failure_characterization (t : List Char) :
    isFailure (best_effort_json t) = true ↔
      strFind t lbrace = none ∨ strRfind t rbrace = none ∨
      (∃ s e, strFind t lbrace = some s ∧ strRfind t rbrace = some e ∧ e ≤ s) ∨
      (∃ s e, strFind t lbrace = some s ∧ strRfind t rbrace = some e ∧ s < e ∧
        json_loads (pySlice t s (e + 1)) = none) := by
  by_cases ht : t = []
  · subst ht
    simp [best_effort_json, isFailure, strFind]
  · unfold best_effort_json
    rw [if_neg ht]
    cases h1 : strFind t lbrace with
    | none => simp [isFailure, h1]
    | some s =>
      cases h2 : strRfind t rbrace with
      | none => simp [isFailure, h1, h2]
      | some e =>
        dsimp only
        by_cases hle : e ≤ s
        · rw [if_pos hle]
          constructor
          · intro _
            exact Or.inr (Or.inr (Or.inl ⟨s, e, rfl, rfl, hle⟩))
          · intro _
            rfl
        · rw [if_neg hle]
          cases h3 : json_loads (pySlice t s (e + 1)) with
          | none =>
            dsimp only
            constructor
            · intro _
              exact Or.inr (Or.inr (Or.inr ⟨s, e, rfl, rfl, by omega, h3⟩))
            · intro _
              rfl
          | some v =>
            dsimp only
            constructor
            · intro hfalse
              simp [isFailure] at hfalse
            · intro hrhs
              exfalso
              rcases hrhs with hA | hB | hC | hD
              · exact Option.noConfusion hA
              · exact Option.noConfusion hB
              · obtain ⟨s2, e2, hs2, he2, hle2⟩ := hC
                injection hs2 with hs2
                injection he2 with he2
                subst hs2
                subst he2
                exact hle hle2
              · obtain ⟨s2, e2, hs2, he2, _, hload⟩ := hD
                injection hs2 with hs2
                injection he2 with he2
                subst hs2
                subst he2
                rw [h3] at hload
                exact Option.noConfusion hload

/-- Claim C2 (corrected) counterexample: the raw text holds exactly one
well-formed JSON object surrounded by prose, but the trailing prose contains
a closing brace, so the slice from the first opening brace to the last
closing brace is not valid JSON and `best_effort_json` fails instead of
returning the value of parsing the object directly. -/
theorem c2_counterexample :
    json_loads (chars "\x7b\"a\": 1\x7d")
      = some (.obj [(chars "a", .num (chars "1"))]) ∧
    best_effort_json (chars "Result: \x7b\"a\": 1\x7d done\x7d")
      = .error .jsonDecodeError :=
  ⟨rfl, rfl⟩

/-- Claim C2 (corrected, amended): for raw text consisting of one well-formed
JSON object surrounded by prose whose leading part contains no opening brace
and whose trailing part contains no closing brace, `best_effort_json` returns
exactly the value obtained by parsing that object directly. -/
theorem c2_extracts_embedded_object (pre inner post : List Char) (v : JsonValue)
    (hpre : lbrace ∉ pre) (hpost : rbrace ∉ post)
    (hv : json_loads (lbrace :: (inner ++ [rbrace])) = some v) :
    best_effort_json (pre ++ (lbrace :: (inner ++ [rbrace])) ++ post) = .ok v := by
  have hshape1 : pre ++ (lbrace :: (inner ++ [rbrace])) ++ post
      = pre ++ lbrace :: ((inner ++ [rbrace]) ++ post) := by simp
  have hshape2 : pre ++ (lbrace :: (inner ++ [rbrace])) ++ post
      = (pre ++ lbrace :: inner) ++ rbrace :: post := by simp
  have ht : pre ++ (lbrace :: (inner ++ [rbrace])) ++ post ≠ [] := by simp
  have hfind : strFind (pre ++ (lbrace :: (inner ++ [rbrace])) ++ post) lbrace
      = some pre.length := by
    rw [hshape1]
    exact strFind_append_cons _ _ _ hpre
  have hrfind : strRfind (pre ++ (lbrace :: (inner ++ [rbrace])) ++ post) rbrace
      = some (pre.length + inner.length + 1) := by
    rw [hshape2, strRfind_append_cons _ _ _ hpost]
    simp [List.length_append]
    omega
  have hmid : (lbrace :: (inner ++ [rbrace])).length = inner.length + 2 := by simp
  have hslice : pySlice (pre ++ (lbrace :: (inner ++ [rbrace])) ++ post)
      pre.length (pre.length + inner.length + 1 + 1) = lbrace :: (inner ++ [rbrace]) := by
    have hidx : pre.length + inner.length + 1 + 1
        = pre.length + (lbrace :: (inner ++ [rbrace])).length := by
      rw [hmid]
      omega
    rw [hidx]
    exact pySlice_append pre _ post
  unfold best_effort_json
  rw [if_neg ht, hfind, hrfind]
  dsimp only
  rw [if_neg (by omega), hslice, hv]

/-- Witness for C2 at a concrete prose-wrapped object. -/
theorem c2_extracts_embedded_object_witness :
    best_effort_json (chars "Result: "
        ++ (lbrace :: (chars "\"a\": 1" ++ [rbrace])) ++ chars " done")
      = .ok (.obj [(chars "a", .num (chars "1"))]) :=
  c2_extracts_embedded_object (chars "Result: ") (chars "\"a\": 1") (chars " done")
    (.obj [(chars "a", .num (chars "1"))]) (by decide) (by decide) rfl

theorem analyze_cv_success (req : AnalyzeRequest) (text : List Char)
    (parsed out : JsonValue)
    (h1 : req.modelConfigured = true) (h2 : req.hasFile = true)
    (h3 : req.filename ≠ [])
    (h4 : ¬(read_cv_text_from_request req.files req.filename = [] ∨
      (read_cv_text_from_request req.files req.filename).length < 50))
    (h5 : req.modelResponse = some text)
    (h6 : best_effort_json text = .ok parsed)
    (h7 : analyze_postprocess parsed = .ok out) :
    analyze_cv req = ⟨200, out⟩ := by
  unfold analyze_cv
  rw [if_neg (by simp [h1]), if_neg (by simp [h2]), if_neg h3]
  dsimp only
  rw [if_neg h4, h5]
  dsimp only
  rw [h6]
  dsimp only
  rw [h7]

/-- Claim C4 (confirmed): for every analyze request, an unconfigured model
client yields a 500 configuration error; a missing file part or empty
filename yields a 400 input error; empty or too-short extracted text yields
a 400 input error; and a raised model invocation, a normalization failure, or
a post-parse coercion failure each yield the generic 500 failure response,
whose body is exactly the error object and hence carries no partial
result. -/
theorem c4_analyze_error_paths (req : AnalyzeRequest) :
    (req.modelConfigured = false →
      analyze_cv req = ⟨500, errorBody "AI model is not configured on the server."⟩) ∧
    (req.modelConfigured = true → req.hasFile = false →
      analyze_cv req = ⟨400, errorBody "No file part"⟩) ∧
    (req.modelConfigured = true → req.hasFile = true → req.filename = [] →
      analyze_cv req = ⟨400, errorBody "No selected file"⟩) ∧
    (req.modelConfigured = true → req.hasFile = true → req.filename ≠ [] →
      (read_cv_text_from_request req.files req.filename = [] ∨
        (read_cv_text_from_request req.files req.filename).length < 50) →
      analyze_cv req = ⟨400, errorBody "Could not extract sufficient text."⟩) ∧
    (req.modelConfigured = true → req.hasFile = true → req.filename ≠ [] →
      ¬(read_cv_text_from_request req.files req.filename = [] ∨
        (read_cv_text_from_request req.files req.filename).length < 50) →
      req.modelResponse = none →
      analyze_cv req = ⟨500, errorBody "AI analysis failed."⟩) ∧
    (∀ text : List Char, req.modelConfigured = true → req.hasFile = true →
      req.filename ≠ [] →
      ¬(read_cv_text_from_request req.files req.filename = [] ∨
        (read_cv_text_from_request req.files req.filename).length < 50) →
      req.modelResponse = some text → isFailure (best_effort_json text) = true →
      analyze_cv req = ⟨500, errorBody "AI analysis failed."⟩) ∧
    (∀ (text : List Char) (parsed : JsonValue), req.modelConfigured = true →
      req.hasFile = true → req.filename ≠ [] →
      ¬(read_cv_text_from_request req.files req.filename = [] ∨
        (read_cv_text_from_request req.files req.filename).length < 50) →
      req.modelResponse = some text → best_effort_json text = .ok parsed →
      isFailure (analyze_postprocess parsed) = true →
      analyze_cv req = ⟨500, errorBody "AI analysis failed."⟩) := by
  refine ⟨?_, ?_, ?_, ?_, ?_, ?_, ?_⟩
  · intro h1
    unfold analyze_cv
    rw [if_pos h1]
  · intro h1 h2
    unfold analyze_cv
    rw [if_neg (by simp [h1]), if_pos h2]
  · intro h1 h2 h3
    unfold analyze_cv
    rw [if_neg (by simp [h1]), if_neg (by simp [h2]), if_pos h3]
  · intro h1 h2 h3 h4
    unfold analyze_cv
    rw [if_neg (by simp [h1]), if_neg (by simp [h2]), if_neg h3]
    dsimp only
    rw [if_pos h4]
  · intro h1 h2 h3 h4 h5
    unfold analyze_cv
    rw [if_neg (by simp [h1]), if_neg (by simp [h2]), if_neg h3]
    dsimp only
    rw [if_neg h4, h5]
  · intro text h1 h2 h3 h4 h5 h6
    obtain ⟨err, herr⟩ : ∃ err, best_effort_json text = .error err := by
      cases hb : best_effort_json text with
      | error e => exact ⟨e, rfl⟩
      | ok v => rw [hb] at h6; simp [isFailure] at h6
    unfold analyze_cv
    rw [if_neg (by simp [h1]), if_neg (by simp [h2]), if_neg h3]
    dsimp only
    rw [if_neg h4, h5]
    dsimp only
    rw [herr]
  · intro text parsed h1 h2 h3 h4 h5 h6 h7
    obtain ⟨err, herr⟩ : ∃ err, analyze_postprocess parsed = .error err := by
      cases hb : analyze_postprocess parsed with
      | error e => exact ⟨e, rfl⟩
      | ok v => rw [hb] at h7; simp [isFailure] at h7
    unfold analyze_cv
    rw [if_neg (by simp [h1]), if_neg (by simp [h2]), if_neg h3]
    dsimp only
    rw [if_neg h4, h5]
    dsimp only
    rw [h6]
    dsimp only
    rw [herr]



/-- Witness for C4: the unconfigured-model path and the unparseable-response
path at concrete requests. -/
theorem c4_analyze_error_paths_witness :
    analyze_cv c4ReqNoModel
      = ⟨500, errorBody "AI model is not configured on the server."⟩ ∧
    analyze_cv c4ReqBadJson = ⟨500, errorBody "AI analysis failed."⟩ :=
  ⟨(c4_analyze_error_paths c4ReqNoModel).1 rfl,
   (c4_analyze_error_paths c4ReqBadJson).2.2.2.2.2.1 (chars "no json today")
     rfl rfl (by decide) (by decide) rfl rfl⟩

/-- Claim C5 (confirmed): an enhance request whose model response parses as a
JSON object lacking the `enhanced_cv_md` key fails with the 500
enhancement-failure response even though parsing succeeded. -/
theorem c5_enhance_missing_mandatory_field (req : EnhanceRequest)
    (text : List Char) (fields : List (List Char × JsonValue))
    (h1 : req.modelConfigured = true) (h2 : req.hasFile = true)
    (h3 : req.filename ≠ [])
    (h4 : ¬(read_cv_text_from_request req.files req.filename = [] ∨
      (read_cv_text_from_request req.files req.filename).length < 50))
    (h5 : req.modelResponse = some text)
    (h6 : best_effort_json text = .ok (.obj fields))
    (h7 : dictGet fields (chars "enhanced_cv_md") = none) :
    enhance_cv req = ⟨500, errorBody "AI enhancement failed."⟩ := by
  have hpost : enhance_postprocess (.obj fields)
      = .error (.valueError (chars "Missing enhanced_cv_md in model output")) := by
    unfold enhance_postprocess
    dsimp only
    rw [h7]
  unfold enhance_cv
  rw [if_neg (by simp [h1]), if_neg (by simp [h2]), if_neg h3]
  dsimp only
  rw [if_neg h4, h5]
  dsimp only
  rw [h6]
  dsimp only
  rw [hpost]

/-- Witness for C5 at a concrete enhance request whose response omits the
mandatory markdown field. -/
theorem c5_enhance_missing_mandatory_field_witness :
    enhance_cv c5Req = ⟨500, errorBody "AI enhancement failed."⟩ :=
  c5_enhance_missing_mandatory_field c5Req (chars "\x7b\"summary\": \"s\"\x7d")
    [(chars "summary", .str (chars "s"))] rfl rfl (by decide) (by decide)
    rfl rfl rfl

theorem analyze_postprocess_preserves (fields : List (List Char × JsonValue))
    (out : JsonValue) (k : List Char) (hk : k ≠ chars "keyword_analysis_text")
    (h : analyze_postprocess (.obj fields) = .ok out) :
    bodyGet ⟨200, out⟩ k = dictGet fields k := by
  unfold analyze_postprocess at h
  dsimp only at h
  cases hka : dictGet fields (chars "keyword_analysis") with
  | none =>
    rw [hka] at h
    dsimp only at h
    injection h with h
    rw [← h]
    rfl
  | some v =>
    rw [hka] at h
    cases v
    case obj ka =>
      dsimp only at h
      cases hkat : keywordAnalysisText ka with
      | ok t =>
        rw [hkat] at h
        dsimp only at h
        injection h with h
        rw [← h]
        show dictGet (dictSet fields (chars "keyword_analysis_text") (.str t)) k
          = dictGet fields k
        exact dictGet_dictSet_ne _ _ _ _ hk
      | error e =>
        rw [hkat] at h
        exact Except.noConfusion h
    all_goals
      dsimp only at h
      injection h with h
      rw [← h]
      rfl

/-- Claim C1 (corrected) counterexample: at this request the extracted JSON
object has a `suggestions` array holding a nested object; the 200 response
returns that element unchanged, so not every returned element is a string and
no conversion to a string representation takes place. -/
theorem c1_counterexample :
    (analyze_cv c1Req).status = 200 ∧
    bodyGet (analyze_cv c1Req) (chars "suggestions")
      = some (.arr [.str (chars "a"), .obj []]) ∧
    isStrVal (.obj []) = false :=
  ⟨rfl, rfl, rfl⟩

/-- Claim C1 (corrected, amended): the analyze operation applies no coercion
to `suggestions`: on every 200 response the `suggestions` entry of the body
is exactly the `suggestions` entry of the parsed model JSON, unchanged, so a
non-string element stays non-string. -/
theorem c1_suggestions_passthrough (req : AnalyzeRequest) (text : List Char)
    (fields : List (List Char × JsonValue)) (out : JsonValue)
    (h1 : req.modelConfigured = true) (h2 : req.hasFile = true)
    (h3 : req.filename ≠ [])
    (h4 : ¬(read_cv_text_from_request req.files req.filename = [] ∨
      (read_cv_text_from_request req.files req.filename).length < 50))
    (h5 : req.modelResponse = some text)
    (h6 : best_effort_json text = .ok (.obj fields))
    (h7 : analyze_postprocess (.obj fields) = .ok out) :
    analyze_cv req = ⟨200, out⟩ ∧
    bodyGet (analyze_cv req) (chars "suggestions")
      = dictGet fields (chars "suggestions") := by
  have hmain := analyze_cv_success req text (.obj fields) out h1 h2 h3 h4 h5 h6 h7
  refine ⟨hmain, ?_⟩
  rw [hmain]
  exact analyze_postprocess_preserves fields out _ (by decide) h7

/-- Witness for C1 at the concrete request of the counterexample. -/
theorem c1_suggestions_passthrough_witness :
    analyze_cv c1Req
      = ⟨200, .obj [(chars "suggestions", .arr [.str (chars "a"), .obj []])]⟩ ∧
    bodyGet (analyze_cv c1Req) (chars "suggestions")
      = dictGet [(chars "suggestions", .arr [.str (chars "a"), .obj []])]
          (chars "suggestions") :=
  c1_suggestions_passthrough c1Req
    (chars "\x7b\"suggestions\": [\"a\", \x7b\x7d]\x7d")
    [(chars "suggestions", .arr [.str (chars "a"), .obj []])]
    (.obj [(chars "suggestions", .arr [.str (chars "a"), .obj []])])
    rfl rfl (by decide) (by decide) rfl rfl rfl

/-- Claim C6 (confirmed): when the parsed `keyword_analysis` field is an
object, the analyze operation attaches under the distinct key
`keyword_analysis_text` the summary string concatenating the `present`,
`missing` and `density_comment` sub-fields, and the original
`keyword_analysis` entry is left in place. -/
theorem c6_keyword_analysis_fallback (req : AnalyzeRequest) (text : List Char)
    (fields ka : List (List Char × JsonValue)) (p m : List Char)
    (h1 : req.modelConfigured = true) (h2 : req.hasFile = true)
    (h3 : req.filename ≠ [])
    (h4 : ¬(read_cv_text_from_request req.files req.filename = [] ∨
      (read_cv_text_from_request req.files req.filename).length < 50))
    (h5 : req.modelResponse = some text)
    (h6 : best_effort_json text = .ok (.obj fields))
    (hka : dictGet fields (chars "keyword_analysis") = some (.obj ka))
    (hp : pyCommaJoin (dictGetD ka (chars "present") (.arr [])) = .ok p)
    (hm : pyCommaJoin (dictGetD ka (chars "missing") (.arr [])) = .ok m) :
    (analyze_cv req).status = 200 ∧
    bodyGet (analyze_cv req) (chars "keyword_analysis_text")
      = some (.str (chars "Present: " ++ p ++ chars " | Missing: " ++ m
          ++ chars " | "
          ++ pyStr (dictGetD ka (chars "density_comment") (.str [])))) ∧
    bodyGet (analyze_cv req) (chars "keyword_analysis") = some (.obj ka) := by
  have hkat : keywordAnalysisText ka
      = .ok (chars "Present: " ++ p ++ chars " | Missing: " ++ m
          ++ chars " | "
          ++ pyStr (dictGetD ka (chars "density_comment") (.str []))) := by
    unfold keywordAnalysisText
    rw [hp]
    dsimp only
    rw [hm]
  have hpost : analyze_postprocess (.obj fields)
      = .ok (.obj (dictSet fields (chars "keyword_analysis_text")
          (.str (chars "Present: " ++ p ++ chars " | Missing: " ++ m
            ++ chars " | "
            ++ pyStr (dictGetD ka (chars "density_comment") (.str [])))))) := by
    unfold analyze_postprocess
    dsimp only
    rw [hka]
    dsimp only
    rw [hkat]
  have hmain := analyze_cv_success req text (.obj fields) _ h1 h2 h3 h4 h5 h6 hpost
  rw [hmain]
  refine ⟨rfl, ?_, ?_⟩
  · show dictGet (dictSet fields (chars "keyword_analysis_text") _)
        (chars "keyword_analysis_text") = _
    rw [dictGet_dictSet_self]
  · show dictGet (dictSet fields (chars "keyword_analysis_text") _)
        (chars "keyword_analysis") = _
    rw [dictGet_dictSet_ne _ _ _ _ (by decide)]
    exact hka

/-- Witness for C6 at a concrete response whose `keyword_analysis` is an
object with string-array sub-fields. -/
theorem c6_keyword_analysis_fallback_witness :
    (analyze_cv c6Req).status = 200 ∧
    bodyGet (analyze_cv c6Req) (chars "keyword_analysis_text")
      = some (.str (chars "Present: " ++ chars "python, sql"
          ++ chars " | Missing: " ++ chars "go" ++ chars " | "
          ++ pyStr (dictGetD
              [(chars "present", .arr [.str (chars "python"), .str (chars "sql")]),
               (chars "missing", .arr [.str (chars "go")]),
               (chars "density_comment", .str (chars "ok density"))]
              (chars "density_comment") (.str [])))) ∧
    bodyGet (analyze_cv c6Req) (chars "keyword_analysis")
      = some (.obj
          [(chars "present", .arr [.str (chars "python"), .str (chars "sql")]),
           (chars "missing", .arr [.str (chars "go")]),
           (chars "density_comment", .str (chars "ok density"))]) :=
  c6_keyword_analysis_fallback c6Req
    (chars "Sure! \x7b\"keyword_analysis\": \x7b\"present\": [\"python\", \"sql\"], \"missing\": [\"go\"], \"density_comment\": \"ok density\"\x7d\x7d")
    [(chars "keyword_analysis", .obj
      [(chars "present", .arr [.str (chars "python"), .str (chars "sql")]),
       (chars "missing", .arr [.str (chars "go")]),
       (chars "density_comment", .str (chars "ok density"))])]
    [(chars "present", .arr [.str (chars "python"), .str (chars "sql")]),
     (chars "missing", .arr [.str (chars "go")]),
     (chars "density_comment", .str (chars "ok density"))]
    (chars "python, sql") (chars "go")
    rfl rfl (by decide) (by decide) rfl rfl rfl rfl rfl


/-- Claim C7 (corrected) counterexample: uploading `cv.txt` is rejected with
status 400, but the error message is `Could not extract sufficient text.`,
which differs from the claimed `Unsupported file type`. -/
theorem c7_counterexample :
    (analyze_cv c7Req).status = 400 ∧
    bodyGet (analyze_cv c7Req) (chars "error")
      = some (.str (chars "Could not extract sufficient text.")) ∧
    chars "Could not extract sufficient text." ≠ chars "Unsupported file type" :=
  ⟨rfl, rfl, by decide⟩

/-- Claim C7 (corrected, amended): a filename whose lowercased form ends in
neither `.pdf` nor `.docx` is rejected with a 400 response before any
extraction is attempted — `read_cv_text_from_request` returns the empty
string for every possible file stream without invoking an extractor — but
the message is `Could not extract sufficient text.` (there is no
`Unsupported file type` message in the code). -/
theorem c7_unsupported_type_rejected (req : AnalyzeRequest)
    (h1 : req.modelConfigured = true) (h2 : req.hasFile = true)
    (h3 : req.filename ≠ [])
    (hpdf : pyEndsWith (pyLower req.filename) (chars ".pdf") = false)
    (hdocx : pyEndsWith (pyLower req.filename) (chars ".docx") = false) :
    analyze_cv req = ⟨400, errorBody "Could not extract sufficient text."⟩ ∧
    (∀ fs : FileStream, read_cv_text_from_request fs req.filename = []) := by
  have hempty : ∀ fs : FileStream, read_cv_text_from_request fs req.filename = [] :=
    fun fs => read_eq_empty fs req.filename hpdf hdocx
  refine ⟨?_, hempty⟩
  unfold analyze_cv
  rw [if_neg (by simp [h1]), if_neg (by simp [h2]), if_neg h3]
  dsimp only
  rw [if_pos (Or.inl (hempty req.files))]

/-- Witness for C7 at the concrete `.txt` request. -/
theorem c7_unsupported_type_rejected_witness :
    analyze_cv c7Req = ⟨400, errorBody "Could not extract sufficient text."⟩ ∧
    read_cv_text_from_request okFileStream c7Req.filename = [] :=
  ⟨(c7_unsupported_type_rejected c7Req rfl rfl (by decide) (by decide)
      (by decide)).1,
   (c7_unsupported_type_rejected c7Req rfl rfl (by decide) (by decide)
      (by decide)).2 okFileStream⟩



/-- Claim C10 (confirmed): both extractors return whitespace-stripped text
(stripping their output again changes nothing), and the 50-character minimum
in the analyze handler is therefore applied to the stripped text: a PDF
upload whose raw joined page text reaches 50 characters only through
surrounding whitespace is rejected with the 400 insufficient-text error. -/
theorem c10_strip_before_length_check :
    (∀ fs : FileStream,
      pyStrip (extract_text_from_pdf fs) = extract_text_from_pdf fs) ∧
    (∀ fs : FileStream,
      pyStrip (extract_text_from_docx fs) = extract_text_from_docx fs) ∧
    (∀ req : AnalyzeRequest, req.modelConfigured = true → req.hasFile = true →
      req.filename ≠ [] →
      pyEndsWith (pyLower req.filename) (chars ".pdf") = true →
      50 ≤ (pdfRawText req.files).length →
      (pyStrip (pdfRawText req.files)).length < 50 →
      analyze_cv req = ⟨400, errorBody "Could not extract sufficient text."⟩) := by
  refine ⟨?_, ?_, ?_⟩
  · intro fs
    unfold extract_text_from_pdf
    cases fs.pdfPages with
    | none => rfl
    | some pages => exact pyStrip_idem _
  · intro fs
    unfold extract_text_from_docx
    cases fs.docxParagraphs with
    | none => rfl
    | some paras => exact pyStrip_idem _
  · intro req h1 h2 h3 hpdf _ hshort
    have hext : extract_text_from_pdf req.files = pyStrip (pdfRawText req.files) := by
      unfold extract_text_from_pdf pdfRawText
      cases req.files.pdfPages with
      | none => rfl
      | some pages => rfl
    have hread : read_cv_text_from_request req.files req.filename
        = pyStrip (pdfRawText req.files) := by
      rw [read_eq_pdf req.files req.filename hpdf, hext]
    unfold analyze_cv
    rw [if_neg (by simp [h1]), if_neg (by simp [h2]), if_neg h3]
    dsimp only
    rw [if_pos (Or.inr (by rw [hread]; exact hshort))]

/-- Witness for C10: a one-page PDF whose text is fifty spaces followed by
five letters (55 raw characters, 5 after stripping) is rejected. -/
theorem c10_strip_before_length_check_witness :
    pyStrip (extract_text_from_pdf c10FileStream)
      = extract_text_from_pdf c10FileStream ∧
    analyze_cv c10Req = ⟨400, errorBody "Could not extract sufficient text."⟩ :=
  ⟨c10_strip_before_length_check.1 c10FileStream,
   c10_strip_before_length_check.2.2 c10Req rfl rfl (by decide) (by decide)
     (by decide) (by decide)⟩
